import Mathlib

/-!
Shallow embedding of the employee-attendance front end
(EmployeeAttendanceDashboard.jsx, BulkAttendancePage.jsx, AttendancePage in
vite.config.js).  Strings are lists of characters; JavaScript truthiness of
strings and numbers is modelled explicitly.
-/

/-- Strings of the embedded program: JavaScript strings as lists of
characters. -/
abbrev Str := List Char

/-- Whether the string beginning with `hay` starts with `needle`. -/
def startsWithL : Str → Str → Bool
  | [], _ => true
  | _ :: _, [] => false
  | a :: as, b :: bs => a == b && startsWithL as bs

/-- Substring containment, mirroring JavaScript String.prototype.includes:
true when some suffix of `hay` starts with `needle`. -/
def includesL (hay needle : Str) : Bool :=
  match hay with
  | [] => needle.isEmpty
  | _ :: t => startsWithL needle hay || includesL t needle

/-- Character-wise lower-casing, mirroring String.prototype.toLowerCase. -/
def toLowerS (s : Str) : Str := s.map Char.toLower

/-- Lexicographic string comparison, mirroring the JavaScript relational
operator on strings used by the date checks. -/
def strLeB : Str → Str → Bool
  | [], _ => true
  | _ :: _, [] => false
  | a :: as, b :: bs => if a == b then strLeB as bs else decide (a < b)

/-- JavaScript truthiness of an optional string field: undefined and the
empty string are falsy. -/
def truthyS : Option Str → Bool
  | some s => !s.isEmpty
  | none => false

/-- JavaScript or-default on a possibly missing string: the left operand when
it is truthy, the default otherwise. -/
def jsOrS : Option Str → Str → Str
  | some s, d => if s.isEmpty then d else s
  | none, d => d

/-- JavaScript or on a possibly missing number with a numeric default
(0 is falsy). -/
def jsOrNat : Option Nat → Nat → Nat
  | some n, d => if n = 0 then d else n
  | none, d => d

/-- JavaScript chain a or b or null on two optional string fields. -/
def jsOrOptS (a b : Option Str) : Option Str :=
  if truthyS a then a else if truthyS b then b else none

/-- Decimal rendering of a numeric id, mirroring String(id) and
id.toString(). -/
def natToStr (n : Nat) : Str := (Nat.repr n).data

/-!
Data model (spec section 3, read off the source).  Only the fields the
embedded operations consult are carried.
-/

/-- An employee of the roster fetched from GET /employees/all, as consumed
by BulkAttendancePage and AttendancePage: numeric id, name, optional role,
and the transient lastStatus field the bulk controller mutates
optimistically. -/
structure Employee where
  id : Nat
  name : Str
  role : Str
  lastStatus : Option Str
deriving Repr, DecidableEq

/-- A raw attendance entry as returned by GET /attendance/all-today-status,
before normalization: every field may be missing, and status data may sit in
either of two field names (status or attendanceStatus, currentDate or date,
lastCheckIn or checkInTime). -/
structure RawItem where
  employeeId : Option Nat
  employeeName : Option Str
  status : Option Str
  attendanceStatus : Option Str
  currentDate : Option Str
  date : Option Str
  department : Option Str
  position : Option Str
  role : Option Str
  lastCheckIn : Option Str
  checkInTime : Option Str
deriving Repr, DecidableEq

/-- A normalized attendance record, output of the processedData mapping in
fetchAttendanceData (EmployeeAttendanceDashboard.jsx lines 118-128): every
field is present. -/
structure AttendanceRecord where
  employeeId : Nat
  employeeName : Str
  status : Str
  date : Str
  department : Str
  position : Str
  lastCheckIn : Option Str
deriving Repr, DecidableEq

/-- A raw item with every field missing, base point for concrete inputs. -/
def rawNone : RawItem :=
  { employeeId := none, employeeName := none, status := none,
    attendanceStatus := none, currentDate := none, date := none,
    department := none, position := none, role := none,
    lastCheckIn := none, checkInTime := none }

/-!
Ingest normalization: the processedData mapping of fetchAttendanceData,
EmployeeAttendanceDashboard.jsx lines 118-128.
-/

/-- The status source expression (item.status or item.attendanceStatus or
the literal absent), before lower-casing. -/
def rawStatusOf (it : RawItem) : Str :=
  jsOrS it.status (jsOrS it.attendanceStatus "absent".data)

/-- Status normalization exactly as written in the source: lower-case the
raw status and canonicalize the single token halfday to half-day; every
other value passes through lower-cased. -/
def normalizeStatus (it : RawItem) : Str :=
  if toLowerS (rawStatusOf it) = "halfday".data then "half-day".data
  else toLowerS (rawStatusOf it)

/-- One raw entry mapped to a normalized record, with the fallback chain of
the source for each field; nowISO stands for new Date().toISOString(). -/
def processItem (it : RawItem) (nowISO : Str) : AttendanceRecord :=
  { employeeId := jsOrNat it.employeeId 0
    employeeName := jsOrS it.employeeName "Unknown".data
    status := normalizeStatus it
    date := jsOrS it.currentDate (jsOrS it.date nowISO)
    department := jsOrS it.department (jsOrS it.role "N/A".data)
    position := jsOrS it.position (jsOrS it.role "N/A".data)
    lastCheckIn := jsOrOptS it.lastCheckIn it.checkInTime }

/-- The whole response array normalized, item by item. -/
def processedData (raw : List RawItem) (nowISO : Str) : List AttendanceRecord :=
  raw.map (fun it => processItem it nowISO)

/-!
Filtering (spec section 4.3).  Three lists filter independently in the
source: the dashboard (filteredData), the bulk page (filteredEmployees) and
the attendance page in vite.config.js (its own filteredEmployees, embedded
here as filteredEmployeesAP).
-/

/-- Dashboard search predicate with the already lower-cased term:
employeeName, stringified employeeId, department and position are each
consulted (EmployeeAttendanceDashboard.jsx lines 49-54). -/
def dashboardMatches (term : Str) (r : AttendanceRecord) : Bool :=
  includesL (toLowerS r.employeeName) term ||
  includesL (natToStr r.employeeId) term ||
  includesL (toLowerS r.department) term ||
  includesL (toLowerS r.position) term

/-- filteredData of the dashboard: search filter (skipped for an empty
term), then status filter (skipped for the value all). -/
def filteredData (attendanceData : List AttendanceRecord)
    (searchTerm statusFilter : Str) : List AttendanceRecord :=
  let result :=
    if searchTerm.isEmpty then attendanceData
    else attendanceData.filter (dashboardMatches (toLowerS searchTerm))
  if statusFilter = "all".data then result
  else result.filter (fun r => r.status == statusFilter)

/-- Bulk page search predicate: lower-cased name against the lower-cased
term, or the stringified id against the raw term
(BulkAttendancePage.jsx lines 104-108). -/
def bulkMatches (search : Str) (e : Employee) : Bool :=
  includesL (toLowerS e.name) (toLowerS search) ||
  includesL (natToStr e.id) search

/-- filteredEmployees of BulkAttendancePage: everything for an empty search,
else the bulkMatches filter. -/
def filteredEmployees (employees : List Employee) (search : Str) :
    List Employee :=
  if search.isEmpty then employees
  else employees.filter (bulkMatches search)

/-- AttendancePage search predicate: lower-cased name or stringified id,
each against the lower-cased term (vite.config.js lines 176-182). -/
def attendanceMatches (search : Str) (e : Employee) : Bool :=
  includesL (toLowerS e.name) (toLowerS search) ||
  includesL (natToStr e.id) (toLowerS search)

/-- filteredEmployees of AttendancePage (no empty-search early return in
that source). -/
def filteredEmployeesAP (employees : List Employee) (search : Str) :
    List Employee :=
  employees.filter (attendanceMatches search)

/-!
Pagination (AttendancePage, vite.config.js lines 185-189).
-/

/-- JavaScript Array.prototype.slice(start, stop) on a list with
non-negative in-range arguments. -/
def jsSlice (l : List Employee) (start stop : Nat) : List Employee :=
  (l.drop start).take (stop - start)

/-- The page size constant employeesPerPage of AttendancePage. -/
def employeesPerPage : Nat := 10

/-- paginatedEmployees with an explicit page size: indexOfLast =
currentPage * pageSize, indexOfFirst = indexOfLast - pageSize,
slice(indexOfFirst, indexOfLast). -/
def paginateWith (l : List Employee) (pageSize currentPage : Nat) :
    List Employee :=
  jsSlice l (currentPage * pageSize - pageSize) (currentPage * pageSize)

/-- paginatedEmployees of AttendancePage at its fixed page size. -/
def paginatedEmployees (l : List Employee) (currentPage : Nat) :
    List Employee :=
  paginateWith l employeesPerPage currentPage

/-- Number of pages, Math.ceil(length / pageSize) as the pagination controls
compute it. -/
def ceilDiv (n p : Nat) : Nat := (n + p - 1) / p

/-!
Summary aggregation (calculateSummary,
EmployeeAttendanceDashboard.jsx lines 144-155).
-/

/-- The summary of partition counts over the status field. -/
structure Summary where
  present : Nat
  absent : Nat
  halfDay : Nat
  total : Nat
deriving Repr, DecidableEq

/-- calculateSummary: three filter-and-count passes plus the raw length. -/
def calculateSummary (data : List AttendanceRecord) : Summary :=
  { present := (data.filter (fun r => r.status == "present".data)).length
    absent := (data.filter (fun r => r.status == "absent".data)).length
    halfDay := (data.filter (fun r => r.status == "half-day".data)).length
    total := data.length }

/-!
The single-slot roster cache (employeeCache and fetchEmployees,
BulkAttendancePage.jsx lines 8-12 and 112-159).  Time is milliseconds since
the epoch, as Date.now() yields; the model assumes the read happens no
earlier than the write, so natural subtraction agrees with the integer
subtraction of the source.
-/

/-- CACHE_DURATION of employeeCache: five minutes in milliseconds. -/
def CACHE_DURATION : Nat := 5 * 60 * 1000

/-- The module-level employeeCache object: one optional payload and the
timestamp of the set that wrote it. -/
structure EmployeeCache where
  data : Option (List Employee)
  timestamp : Nat
deriving Repr, DecidableEq

/-- The cache read on entry to fetchEmployees: the payload only when one is
present and its age is strictly below CACHE_DURATION, absent otherwise. -/
def cacheGet (c : EmployeeCache) (now : Nat) : Option (List Employee) :=
  match c.data with
  | some d => if now - c.timestamp < CACHE_DURATION then some d else none
  | none => none

/-- The cache write after a successful fetch: overwrite the payload and
reset the timestamp. -/
def cacheSet (d : List Employee) (now : Nat) : EmployeeCache :=
  { data := some d, timestamp := now }

/-- One run of fetchEmployees: serve a fresh cache hit without touching the
network; on a miss consult the server (some roster on success, none on
failure), updating the cache on success and falling back to the stale
payload, when any, on failure.  Yields the cache afterwards and the roster
handed to setEmployees (none when nothing was set). -/
def fetchEmployeesStep (c : EmployeeCache) (now : Nat)
    (server : Option (List Employee)) :
    EmployeeCache × Option (List Employee) :=
  match cacheGet c now with
  | some d => (c, some d)
  | none =>
    match server with
    | some d => (cacheSet d now, some d)
    | none => (c, c.data)

/-!
The bulk selection and optimistic mutation controller (markBulkAttendance,
handleSelectAll and the Mark Attendance button,
BulkAttendancePage.jsx lines 162-256 and 424-437).
-/

/-- Outcome of the POST /bulk-attendance/mark request: a 2xx response, a
non-2xx response, or a network or timeout failure thrown by fetch itself. -/
inductive ServerResp where
  | ok
  | httpErr
  | netErr
deriving Repr, DecidableEq

/-- The component state markBulkAttendance reads and writes: the roster, the
chosen status (empty string when none is chosen), the Selection Set of
employee ids, the chosen date, the current date, and the isMarking
in-flight flag. -/
structure BulkState where
  employees : List Employee
  search : Str
  selectedStatus : Str
  selectedEmployees : List Nat
  selectedDate : Str
  today : Str
  isMarking : Bool
deriving Repr, DecidableEq

/-- isDateValid: selectedDate is no later than today under the string
comparison of the source. -/
def isDateValidB (s : BulkState) : Bool := strLeB s.selectedDate s.today

/-- The optimistic pass of markBulkAttendance: the lastStatus of every
selected employee set to the chosen status, the others untouched. -/
def applyOptimistic (employees : List Employee) (sel : List Nat)
    (status : Str) : List Employee :=
  employees.map (fun e =>
    if sel.contains e.id then { e with lastStatus := some status } else e)

/-- What one call to markBulkAttendance leaves behind: the new component
state, whether the POST was issued, and whether a validation error was
reported locally instead. -/
structure BulkResult where
  state : BulkState
  requestIssued : Bool
  validationError : Bool
deriving Repr, DecidableEq

/-- markBulkAttendance: the three validation gates (status chosen, selection
non-empty, date not in the future) return early without a request; past
them the pre-submission snapshot is taken, the optimistic update applied,
and the request issued.  A 2xx response keeps the optimistic roster and
clears the selection; a non-2xx response restores the snapshot; a thrown
network or timeout error is caught by the catch block, which reverts
nothing.  isMarking is cleared in the finally block on every request
path. -/
def markBulkAttendance (s : BulkState) (resp : ServerResp) : BulkResult :=
  if s.selectedStatus.isEmpty then
    { state := s, requestIssued := false, validationError := true }
  else if s.selectedEmployees.isEmpty then
    { state := s, requestIssued := false, validationError := true }
  else if !isDateValidB s then
    { state := s, requestIssued := false, validationError := true }
  else
    let prevEmployees := s.employees
    let optimistic :=
      applyOptimistic s.employees s.selectedEmployees s.selectedStatus
    match resp with
    | .ok =>
      { state :=
          { s with
            employees := optimistic
            selectedEmployees := []
            isMarking := false }
        requestIssued := true
        validationError := false }
    | .httpErr =>
      { state := { s with employees := prevEmployees, isMarking := false }
        requestIssued := true
        validationError := false }
    | .netErr =>
      { state := { s with employees := optimistic, isMarking := false }
        requestIssued := true
        validationError := false }

/-- The disabled condition of the Mark Attendance button
(BulkAttendancePage.jsx line 427): no status, empty selection, a submission
in flight, or an invalid date. -/
def markDisabled (s : BulkState) : Bool :=
  s.selectedStatus.isEmpty || s.selectedEmployees.isEmpty || s.isMarking ||
  !isDateValidB s

/-- handleSelectAll (BulkAttendancePage.jsx lines 175-181): checked replaces
the Selection Set with the ids of the currently filtered employees,
unchecked with the empty set. -/
def handleSelectAll (checked : Bool) (employees : List Employee)
    (search : Str) : List Nat :=
  if checked then (filteredEmployees employees search).map (fun e => e.id)
  else []

/-!
Concrete inputs used by counterexamples and witnesses.
-/

/-- An employee whose role, and nothing else, holds the searched text. -/
def roleEmp : Employee :=
  { id := 7, name := "Asha".data, role := "Manager".data, lastStatus := none }

/-- A valid submission state: one selected employee, a chosen status, a date
not in the future, pristine lastStatus. -/
def netErrState : BulkState :=
  { employees := [{ id := 1, name := "Asha".data, role := [],
                    lastStatus := none }]
    search := []
    selectedStatus := "present".data
    selectedEmployees := [1]
    selectedDate := "2026-10-11".data
    today := "2026-10-12".data
    isMarking := false }

/-- A valid submission state with a submission already in flight. -/
def inFlightState : BulkState :=
  { employees := [{ id := 1, name := "Asha".data, role := [],
                    lastStatus := none }]
    search := []
    selectedStatus := "present".data
    selectedEmployees := [1]
    selectedDate := "2026-10-11".data
    today := "2026-10-12".data
    isMarking := true }

/-- A mixed collection: one canonical record and one record whose status,
the pass-through value on-leave, is counted by no status bucket. -/
def mixedRecords : List AttendanceRecord :=
  [{ employeeId := 1, employeeName := "Asha".data, status := "present".data,
     date := [], department := "N/A".data, position := "N/A".data,
     lastCheckIn := none },
   { employeeId := 2, employeeName := "Ravi".data, status := "on-leave".data,
     date := [], department := "N/A".data, position := "N/A".data,
     lastCheckIn := none }]

/-- A concrete three-employee roster. -/
def smallRoster : List Employee :=
  [{ id := 1, name := "Asha".data, role := [], lastStatus := none },
   { id := 2, name := "Ravi".data, role := [], lastStatus := none },
   { id := 3, name := "Devi".data, role := [], lastStatus := none }]

/-!
Helper lemmas.
-/

/-- Every string includes the empty string, as in JavaScript. -/
theorem includesL_nil (hay : Str) : includesL hay [] = true := by
  cases hay <;> simp [includesL, startsWithL]

/-- A falsy or-operand is skipped. -/
theorem jsOrS_of_falsy {a : Option Str} (d : Str) (h : truthyS a = false) :
    jsOrS a d = d := by
  cases a with
  | none => rfl
  | some s =>
    simp only [truthyS, Bool.not_eq_false'] at h
    simp [jsOrS, h]

/-- The or-default chain never yields the empty string when its default is
not empty. -/
theorem jsOrS_ne_nil {a : Option Str} {d : Str} (hd : d ≠ []) :
    jsOrS a d ≠ [] := by
  cases a with
  | none => exact hd
  | some s =>
    simp only [jsOrS]
    split
    · exact hd
    · simpa [List.isEmpty_iff] using (by assumption : s.isEmpty ≠ true)

/-- Lower-casing keeps a string non-empty. -/
theorem toLowerS_ne_nil {s : Str} (h : s ≠ []) : toLowerS s ≠ [] := by
  cases s with
  | nil => exact absurd rfl h
  | cons c t => simp [toLowerS]

/-- Membership in the bulk page filter, with the empty-search early return
spelled out. -/
theorem mem_filteredEmployees {employees : List Employee} {search : Str}
    {e : Employee} :
    e ∈ filteredEmployees employees search ↔
      e ∈ employees ∧ (search = [] ∨ bulkMatches search e = true) := by
  unfold filteredEmployees
  rcases hs : search.isEmpty with _ | _
  · have : search ≠ [] := by simpa [List.isEmpty_iff] using hs
    simp [hs, List.mem_filter, this]
  · have : search = [] := by simpa [List.isEmpty_iff] using hs
    simp [hs, this]

/-!
Claim theorems.
-/

/-- C4 (amended): on ingest, when both status fields are missing or empty
the normalized status is absent; the token halfday, in any letter case and
from either field, is canonicalized to half-day; every other status value is
lower-cased and passed through unchanged, not defaulted to absent. -/
theorem status_normalization_c4 (it : RawItem) :
    (truthyS it.status = false ∧ truthyS it.attendanceStatus = false →
      normalizeStatus it = "absent".data) ∧
    (toLowerS (rawStatusOf it) = "halfday".data →
      normalizeStatus it = "half-day".data) ∧
    (toLowerS (rawStatusOf it) ≠ "halfday".data →
      normalizeStatus it = toLowerS (rawStatusOf it)) := by
  refine ⟨?_, ?_, ?_⟩
  · rintro ⟨h1, h2⟩
    have hraw : rawStatusOf it = "absent".data := by
      rw [rawStatusOf, jsOrS_of_falsy _ h1, jsOrS_of_falsy _ h2]
    rw [normalizeStatus, hraw]
    decide
  · intro h
    rw [normalizeStatus, if_pos h]
  · intro h
    rw [normalizeStatus, if_neg h]

/-- C4 counterexample to the claim as stated: the unrecognized status value
Vacation is ingested as the lower-cased pass-through vacation, not defaulted
to absent (and it is none of the three canonical statuses). -/
theorem status_normalization_c4_cex :
    normalizeStatus { rawNone with status := some "Vacation".data } =
      "vacation".data ∧
    ("vacation".data : Str) ≠ "absent".data ∧
    ("vacation".data : Str) ≠ "present".data ∧
    ("vacation".data : Str) ≠ "half-day".data := by decide

/-- C10: ingest normalization is total over raw entries: a missing
employeeId becomes 0, a missing or empty employeeName becomes Unknown,
department and position fall back to the role field and then N/A, a missing
date falls back to the current timestamp and a missing check-in to null; the
name, department, position and status fields of every processed record are
non-empty, so downstream filtering, summary and export never see a missing
field. -/
theorem ingest_totality_c10 (it : RawItem) (nowISO : Str) :
    (it.employeeId = none → (processItem it nowISO).employeeId = 0) ∧
    (truthyS it.employeeName = false →
      (processItem it nowISO).employeeName = "Unknown".data) ∧
    (truthyS it.department = false →
      (processItem it nowISO).department = jsOrS it.role "N/A".data) ∧
    (truthyS it.position = false →
      (processItem it nowISO).position = jsOrS it.role "N/A".data) ∧
    (truthyS it.currentDate = false ∧ truthyS it.date = false →
      (processItem it nowISO).date = nowISO) ∧
    (truthyS it.lastCheckIn = false ∧ truthyS it.checkInTime = false →
      (processItem it nowISO).lastCheckIn = none) ∧
    (processItem it nowISO).employeeName ≠ [] ∧
    (processItem it nowISO).department ≠ [] ∧
    (processItem it nowISO).position ≠ [] ∧
    (processItem it nowISO).status ≠ [] := by
  refine ⟨?_, ?_, ?_, ?_, ?_, ?_, ?_, ?_, ?_, ?_⟩
  · intro h
    simp [processItem, h, jsOrNat]
  · intro h
    simp [processItem, jsOrS_of_falsy _ h]
  · intro h
    simp [processItem, jsOrS_of_falsy _ h]
  · intro h
    simp [processItem, jsOrS_of_falsy _ h]
  · rintro ⟨h1, h2⟩
    simp [processItem, jsOrS_of_falsy _ h1, jsOrS_of_falsy _ h2]
  · rintro ⟨h1, h2⟩
    simp [processItem, jsOrOptS, h1, h2]
  · exact jsOrS_ne_nil (by decide)
  · exact jsOrS_ne_nil (jsOrS_ne_nil (by decide))
  · exact jsOrS_ne_nil (jsOrS_ne_nil (by decide))
  · show normalizeStatus it ≠ []
    rw [normalizeStatus]
    split
    · decide
    · exact toLowerS_ne_nil (jsOrS_ne_nil (jsOrS_ne_nil (by decide)))

/-- C5: for the single-slot roster cache with its five-minute TTL, a get
after a set at time t0 returns the cached value exactly when now - t0 is
strictly below CACHE_DURATION; once expired the get behaves as absent and
the fetch that follows overwrites the entry with the fresh roster and
resets its timestamp to now. -/
theorem cache_ttl_c5 (d : List Employee) (t0 now : Nat) (_h : t0 ≤ now) :
    (cacheGet (cacheSet d t0) now = some d ↔ now - t0 < CACHE_DURATION) ∧
    (¬ now - t0 < CACHE_DURATION → ∀ fresh : List Employee,
      fetchEmployeesStep (cacheSet d t0) now (some fresh) =
        (cacheSet fresh now, some fresh)) := by
  constructor
  · simp only [cacheGet, cacheSet]
    split
    · simp_all
    · simp_all
  · intro hexp fresh
    simp [fetchEmployeesStep, cacheGet, cacheSet, if_neg hexp]

/-- C5 witness: a concrete get one millisecond past expiry, with the
refetch overwriting the slot. -/
theorem cache_ttl_c5_witness :
    (cacheGet (cacheSet [] 0) 300001 = some [] ↔
      300001 - 0 < CACHE_DURATION) ∧
    (¬ 300001 - 0 < CACHE_DURATION → ∀ fresh : List Employee,
      fetchEmployeesStep (cacheSet [] 0) 300001 (some fresh) =
        (cacheSet fresh 300001, some fresh)) :=
  cache_ttl_c5 [] 0 300001 (by decide)

/-- C6: a call to markBulkAttendance issues the network request exactly when
a status is chosen, the Selection Set is non-empty and the selected date is
not past today under lexicographic string comparison; otherwise it reports a
validation error locally, issues no request and leaves the state
untouched. -/
theorem submit_validation_c6 (s : BulkState) (resp : ServerResp) :
    ((markBulkAttendance s resp).requestIssued = true ↔
      s.selectedStatus ≠ [] ∧ s.selectedEmployees ≠ [] ∧
      strLeB s.selectedDate s.today = true) ∧
    ((markBulkAttendance s resp).validationError = true ↔
      (markBulkAttendance s resp).requestIssued = false) ∧
    ((markBulkAttendance s resp).validationError = true →
      (markBulkAttendance s resp).state = s) := by
  rcases h1 : s.selectedStatus.isEmpty with _ | _ <;>
  rcases h2 : s.selectedEmployees.isEmpty with _ | _ <;>
  rcases h3 : isDateValidB s with _ | _ <;>
  cases resp <;>
  simp_all [markBulkAttendance, isDateValidB, List.isEmpty_iff,
    List.isEmpty_eq_false]

/-- C9: when checked, select-all replaces the Selection Set with exactly the
ids of the currently filtered employees; when unchecked it replaces it with
the empty set; every id it adds belongs to an employee of the roster that
the current search leaves visible, so hidden employees are never added. -/
theorem select_all_c9 (employees : List Employee) (search : Str) :
    (∀ i : Nat, i ∈ handleSelectAll true employees search ↔
      ∃ e ∈ filteredEmployees employees search, e.id = i) ∧
    handleSelectAll false employees search = [] ∧
    (∀ i ∈ handleSelectAll true employees search,
      ∃ e ∈ employees, e.id = i ∧
        (search = [] ∨ bulkMatches search e = true)) := by
  refine ⟨?_, rfl, ?_⟩
  · intro i
    simp [handleSelectAll, List.mem_map]
  · intro i hi
    simp only [handleSelectAll, if_pos, List.mem_map] at hi
    obtain ⟨e, he, rfl⟩ := hi
    obtain ⟨hmem, hvis⟩ := mem_filteredEmployees.mp he
    exact ⟨e, hmem, rfl, hvis⟩

/-- C3 (amended): a dashboard record passes the filter (status filter all)
exactly when the lower-cased term is a substring of the lower-cased name,
the stringified id, the lower-cased department or the lower-cased position;
in the two employee-only lists an employee passes exactly when the term
matches the name case-insensitively or the stringified id — the role field
is not searched there. -/
theorem search_fields_c3 (data : List AttendanceRecord)
    (emps : List Employee) (term : Str) (r : AttendanceRecord)
    (e : Employee) :
    (r ∈ filteredData data term "all".data ↔
      r ∈ data ∧
      (includesL (toLowerS r.employeeName) (toLowerS term) ||
       includesL (natToStr r.employeeId) (toLowerS term) ||
       includesL (toLowerS r.department) (toLowerS term) ||
       includesL (toLowerS r.position) (toLowerS term)) = true) ∧
    (e ∈ filteredEmployees emps term ↔
      e ∈ emps ∧
      (includesL (toLowerS e.name) (toLowerS term) ||
       includesL (natToStr e.id) term) = true) ∧
    (e ∈ filteredEmployeesAP emps term ↔
      e ∈ emps ∧
      (includesL (toLowerS e.name) (toLowerS term) ||
       includesL (natToStr e.id) (toLowerS term)) = true) := by
  refine ⟨?_, ?_, ?_⟩
  · unfold filteredData
    rcases hs : term.isEmpty with _ | _
    · simp [hs, List.mem_filter, dashboardMatches]
    · have ht : term = [] := by simpa [List.isEmpty_iff] using hs
      subst ht
      simp [toLowerS, includesL_nil]
  · rw [mem_filteredEmployees]
    by_cases ht : term = []
    · subst ht
      simp [bulkMatches, toLowerS, includesL_nil]
    · simp [ht, bulkMatches]
  · simp [filteredEmployeesAP, List.mem_filter, attendanceMatches]

/-- C3 counterexample to the claim as stated: in the employee-only lists a
term that occurs (even case-insensitively) only in the role field does not
match, although the claim says the role is searched there. -/
theorem search_fields_c3_cex :
    roleEmp ∈ [roleEmp] ∧
    includesL (toLowerS roleEmp.role) (toLowerS "Manager".data) = true ∧
    roleEmp ∉ filteredEmployees [roleEmp] "Manager".data ∧
    roleEmp ∉ filteredEmployeesAP [roleEmp] "Manager".data := by decide

/-- C1 (amended): when the server answers non-2xx the controller restores
the pre-submission roster snapshot and keeps the Selection Set; when fetch
itself fails with a network or timeout error the Selection Set is kept but
nothing is rolled back: the optimistic lastStatus mutation stays in
place. -/
theorem rollback_c1 (s : BulkState) :
    (markBulkAttendance s .httpErr).state.employees = s.employees ∧
    (markBulkAttendance s .httpErr).state.selectedEmployees =
      s.selectedEmployees ∧
    (markBulkAttendance s .netErr).state.selectedEmployees =
      s.selectedEmployees ∧
    ((markBulkAttendance s .netErr).requestIssued = true →
      (markBulkAttendance s .netErr).state.employees =
        applyOptimistic s.employees s.selectedEmployees s.selectedStatus) := by
  rcases h1 : s.selectedStatus.isEmpty with _ | _ <;>
  rcases h2 : s.selectedEmployees.isEmpty with _ | _ <;>
  rcases h3 : isDateValidB s with _ | _ <;>
  simp_all [markBulkAttendance]

/-- C1 counterexample to the claim as stated: a submission that fails with a
network error leaves the roster different from the pre-submission snapshot
(the optimistic mutation survives). -/
theorem rollback_c1_cex :
    (markBulkAttendance netErrState .netErr).requestIssued = true ∧
    (markBulkAttendance netErrState .netErr).state.employees ≠
      netErrState.employees := by decide

/-- C2 (amended): markBulkAttendance itself performs no Submitting-state
check — whether the request is issued is independent of the isMarking flag —
and at-most-one-in-flight is enforced only by the Mark Attendance button
being disabled whenever isMarking is set. -/
theorem concurrency_c2 (s : BulkState) (resp : ServerResp) :
    (s.isMarking = true → markDisabled s = true) ∧
    (markBulkAttendance { s with isMarking := true } resp).requestIssued =
      (markBulkAttendance { s with isMarking := false } resp).requestIssued := by
  constructor
  · intro h
    simp [markDisabled, h]
  · rcases h1 : s.selectedStatus.isEmpty with _ | _ <;>
    rcases h2 : s.selectedEmployees.isEmpty with _ | _ <;>
    rcases h3 : isDateValidB s with _ | _ <;>
    cases resp <;>
    simp_all [markBulkAttendance, isDateValidB]

/-- C2 counterexample to the claim as stated: with a submission in flight
(isMarking set) a second call to markBulkAttendance is not rejected — it
issues a second request and reports no error. -/
theorem concurrency_c2_cex :
    inFlightState.isMarking = true ∧
    (markBulkAttendance inFlightState .ok).requestIssued = true ∧
    (markBulkAttendance inFlightState .ok).validationError = false := by
  decide

/-- The three canonical filter counts partition a collection in which every
record carries one of the three canonical statuses. -/
theorem three_filter_length :
    ∀ data : List AttendanceRecord,
      (∀ r ∈ data, r.status = "present".data ∨ r.status = "absent".data ∨
        r.status = "half-day".data) →
      (data.filter (fun r => r.status == "present".data)).length +
        (data.filter (fun r => r.status == "absent".data)).length +
        (data.filter (fun r => r.status == "half-day".data)).length =
        data.length := by
  intro data
  induction data with
  | nil => intro _; rfl
  | cons r t ih =>
    intro h
    have hr := h r (List.mem_cons_self r t)
    have iht := ih (fun x hx => h x (List.mem_cons_of_mem r hx))
    simp only [List.filter_cons, List.length_cons]
    rcases hr with h1 | h1 | h1 <;> rw [h1] <;> simp +decide at iht ⊢ <;>
      omega

/-- C8: calculateSummary counts the records of each canonical status and
reports the length of the collection as total, so the three counts add to the
total whenever every record carries a canonical status, while a collection
holding an unrecognized status witnesses a strictly smaller sum. -/
theorem summary_counts_c8 :
    (∀ data : List AttendanceRecord,
      (∀ r ∈ data, r.status = "present".data ∨ r.status = "absent".data ∨
        r.status = "half-day".data) →
      (calculateSummary data).present + (calculateSummary data).absent +
        (calculateSummary data).halfDay = (calculateSummary data).total) ∧
    (calculateSummary mixedRecords).present +
        (calculateSummary mixedRecords).absent +
        (calculateSummary mixedRecords).halfDay <
      (calculateSummary mixedRecords).total := by
  constructor
  · intro data h
    simpa only [calculateSummary] using three_filter_length data h
  · decide

/-- Concatenating n fixed-size windows covers a list of length at most
n times the window size. -/
theorem flatten_windows (P : Nat) :
    ∀ (n : Nat) (l : List Employee), l.length ≤ n * P →
      ((List.range n).map (fun i => (l.drop (i * P)).take P)).flatten = l := by
  intro n
  induction n with
  | zero =>
    intro l hl
    simp only [Nat.zero_mul, Nat.le_zero, List.length_eq_zero] at hl
    simp [hl]
  | succ n ih =>
    intro l hl
    rw [List.range_succ_eq_map]
    simp only [List.map_cons, List.map_map, List.flatten_cons,
      Function.comp_def, Nat.zero_mul, List.drop_zero]
    have hdrop : ∀ i : Nat,
        (l.drop (Nat.succ i * P)).take P =
          ((l.drop P).drop (i * P)).take P := by
      intro i
      rw [List.drop_drop]
      congr 2
      rw [Nat.succ_mul]
      omega
    rw [List.map_congr_left (fun i _ => hdrop i)]
    rw [ih (l.drop P) (by simp only [List.length_drop]; rw [Nat.succ_mul] at hl; omega)]
    exact List.take_append_drop P l

/-- C7: with 1-based pages sliced as the source does, the concatenation of
pages 1 through ceil(N / P) reconstructs the whole collection in order, with
nothing duplicated and nothing omitted. -/
theorem pagination_coverage_c7 (l : List Employee) (P : Nat) (hP : 0 < P) :
    ((List.range (ceilDiv l.length P)).map
      (fun i => paginateWith l P (i + 1))).flatten = l := by
  have hpage : ∀ i : Nat, paginateWith l P (i + 1) = (l.drop (i * P)).take P := by
    intro i
    unfold paginateWith jsSlice
    have h1 : (i + 1) * P - P = i * P := by rw [Nat.succ_mul]; omega
    rw [h1]
    have h2 : (i + 1) * P - i * P = P := by rw [Nat.succ_mul]; omega
    rw [h2]
  simp only [hpage]
  apply flatten_windows P (ceilDiv l.length P) l
  unfold ceilDiv
  obtain ⟨q, r, hqr, hrP, hq⟩ :
      ∃ q r, P * q + r = l.length + P - 1 ∧ r < P ∧
        (l.length + P - 1) / P = q :=
    ⟨_, _, Nat.div_add_mod _ _, Nat.mod_lt _ hP, rfl⟩
  rw [hq, Nat.mul_comm]
  generalize hm : P * q = m at hqr ⊢
  omega

/-- C7 witness: three employees at page size two make two pages whose
concatenation is the roster. -/
theorem pagination_coverage_c7_witness :
    ((List.range (ceilDiv smallRoster.length 2)).map
      (fun i => paginateWith smallRoster 2 (i + 1))).flatten = smallRoster :=
  pagination_coverage_c7 smallRoster 2 (by decide)
